import Mathlib

/-!
Shallow embedding of the decision-and-retry core of `src/common/merge.ts`
(`getIsModified`, `merge`, `shouldRetry`, `mergeWithRetry`, `tryMerge`).

The GraphQL executor, the paginated iterator (`makeGraphqlIterator`), the
configuration reader (`getInput`), the title-preset checker and the delay
constants are external collaborators whose code is not part of the source
under analysis; they are modelled from the specification (section 4.1:
a lazy, single-pass, forward-only, non-restartable cursor iterator; a
configuration provider fixed for the run; fixed backoff constants).

Commit data is supplied as the list of pages the server would return, in
order.  Every observable action (configuration reads, page queries, merge
mutations, log lines, backoff waits) is recorded in a trace of `Effect`
values, and a thrown JavaScript error is an `Except.error`.
-/

namespace MergeMe

/-- Commit signature object: `{ isValid: boolean }`, or absent (`null`). -/
structure CommitSignature where
  isValid : Bool

/-- Nested `user` object of a commit author, carrying the login. -/
structure CommitUser where
  login : String

/-- Commit author object; the nested `user` may be `null`. -/
structure CommitAuthor where
  user : Option CommitUser

/-- Fields of one commit used by the detector; `author` and `signature`
may each be `null`. -/
structure Commit where
  author : Option CommitAuthor
  signature : Option CommitSignature

/-- One node of the paginated commit list of a pull request. -/
structure PullRequestCommitNode where
  commit : Commit

/-- Inner node of a review edge, carrying the review state string. -/
structure ReviewNode where
  state : String

/-- One review edge of the pull request. -/
structure ReviewEdge where
  node : ReviewNode

/-- Merge method resolved by `parseInputMergeMethod` (external collaborator);
a closed set per the specification. -/
inductive MergeMethod
  | MERGE
  | SQUASH
  | REBASE

/-- JavaScript runtime errors the embedded code can raise.  `typeError` is
the `TypeError` thrown by reading a property of `null`/`undefined`. -/
inductive JsError
  | typeError

/-- Which merge mutation document is used. -/
inductive MutationKind
  | approveAndMerge
  | mergeOnly

/-- Variable payload passed to the merge mutation. -/
structure MutationPayload where
  commitHeadline : String
  pullRequestId : String

/-- One observable action of a run. -/
inductive Effect
  | configRead (name : String)
  | commitQuery
  | mutation (method : MergeMethod) (kind : MutationKind) (payload : MutationPayload)
  | logInfo (message : String)
  | logWarning (message : String)
  | logDebug (message : String)
  | waitDelay (ms : Nat)

/-- Evaluation of `author.user.login` on a commit: reading through a `null`
`author` or `null` `user` throws a `TypeError`. -/
def authorLogin (c : Commit) : Except JsError String :=
  match c.author with
  | none => .error .typeError
  | some a =>
    match a.user with
    | none => .error .typeError
    | some u => .ok u.login

/-- Warning text logged by `getIsModified` for a missing or invalid
commit signature. -/
def signatureWarning : String :=
  "Commit signature not present or invalid, regarding PR as modified."

/-- Warning text logged by `getIsModified` when no commit is found. -/
def noCommitsWarning : String := "Could not find PR commits, aborting."

/-- Body of the `for await` loop of `getIsModified` for one commit node:
`none` means the loop continues, `some (r, t)` means the loop terminates
with result `r` (a return value or a thrown error) after emitting trace
`t`.  Mirrors the source order: signature check first, then the author
login comparison against the first commit. -/
def checkCommit (first c : PullRequestCommitNode) :
    Option (Except JsError Bool × List Effect) :=
  match c.commit.signature with
  | none => some (.ok true, [.logWarning signatureWarning])
  | some s =>
    if s.isValid = true then
      match authorLogin c.commit with
      | .error e => some (.error e, [])
      | .ok l =>
        match authorLogin first.commit with
        | .error e => some (.error e, [])
        | .ok lf => if l = lf then none else some (.ok true, [])
    else some (.ok true, [.logWarning signatureWarning])

/-- Runs the loop body over the commits remaining in the current page
buffer; `none` means the buffer was exhausted without terminating. -/
def scanPage (first : PullRequestCommitNode) :
    List PullRequestCommitNode → Option (Except JsError Bool × List Effect)
  | [] => none
  | c :: rest =>
    match checkCommit first c with
    | some r => some r
    | none => scanPage first rest

/-- Runs the loop over the pages not yet fetched.  Modelled from the spec:
the iterator of `makeGraphqlIterator` issues one query per page, only when
the previous page is exhausted, and stops after the last page.  Returns
the loop result, the number of page queries issued, and the emitted logs. -/
def scanPages (first : PullRequestCommitNode) :
    List (List PullRequestCommitNode) → Except JsError Bool × Nat × List Effect
  | [] => (.ok false, 0, [])
  | p :: ps =>
    match scanPage first p with
    | some (r, t) => (r, 1, t)
    | none =>
      ((scanPages first ps).1, (scanPages first ps).2.1 + 1, (scanPages first ps).2.2)

/-- Modelled from the spec: the first `iterator.next()` call of
`getIsModified`, fetching pages in order until one yields a node.  Returns
the first commit together with the rest of its (already fetched) page and
the unfetched pages, plus the number of queries issued; `none` when the
whole sequence is empty. -/
def takeFirst :
    List (List PullRequestCommitNode) →
      Option (PullRequestCommitNode × List PullRequestCommitNode ×
        List (List PullRequestCommitNode)) × Nat
  | [] => (none, 0)
  | [] :: ps => ((takeFirst ps).1, (takeFirst ps).2 + 1)
  | (c :: rest) :: ps => (some (c, rest, ps), 1)

/-- Embedding of `getIsModified`: takes the pages the server would return
and produces the result (or thrown error), the number of page queries
issued, and the warnings logged.  The first commit is consumed by the
initial `iterator.next()`; the single-pass iterator then resumes at the
second commit for the `for await` loop. -/
def getIsModified (pages : List (List PullRequestCommitNode)) :
    Except JsError Bool × Nat × List Effect :=
  match takeFirst pages with
  | (none, n) => (.ok true, n, [.logWarning noCommitsWarning])
  | (some (first, buf, ps), n) =>
    match scanPage first buf with
    | some (r, t) => (r, n, t)
    | none =>
      ((scanPages first ps).1, n + (scanPages first ps).2.1, (scanPages first ps).2.2)

/-- Does `needle` occur at the head of `hay`? (character list version of
`String.prototype.startsWith`). -/
def leadsWith : List Char → List Char → Bool
  | [], _ => true
  | _ :: _, [] => false
  | a :: as, b :: bs => a == b && leadsWith as bs

/-- Does `needle` occur anywhere in `hay`? -/
def hasSubchain : List Char → List Char → Bool
  | [], needle => leadsWith needle []
  | b :: bs, needle => leadsWith needle (b :: bs) || hasSubchain bs needle

/-- Embedding of `message.includes(needle)` on JavaScript strings. -/
def messageIncludes (message needle : String) : Bool :=
  hasSubchain message.toList needle.toList

/-- The transient-error text `shouldRetry` pattern-matches on. -/
def retryableText : String := "Base branch was modified."

/-- Text logged by `shouldRetry` when the retry bound is exceeded. -/
def exhaustedMessage (retryCount : Nat) : String :=
  "Unable to merge after " ++ Nat.repr retryCount ++ " attempts. Retries exhausted."

/-- Embedding of `shouldRetry`: decides whether the failed attempt is
retried, logging when a retryable error has exhausted its retries. -/
def shouldRetry (message : String) (retryCount maximumRetries : Nat) :
    Bool × List Effect :=
  let isRetryableError := messageIncludes message retryableText
  if isRetryableError ∧ retryCount > maximumRetries then
    (false, [.logInfo (exhaustedMessage retryCount)])
  else (isRetryableError, [])

/-- Which mutation document `merge` selects from the review edge passed to
it: approve-and-merge when no review edge exists, merge-only otherwise. -/
def mutationKind : Option ReviewEdge → MutationKind
  | none => .approveAndMerge
  | some _ => .mergeOnly

/-- Immutable merge payload handed from the gate to the retry engine. -/
structure PullRequestDetails where
  commitHeadline : String
  pullRequestId : String
  reviewEdge : Option ReviewEdge

/-- Embedding of `merge`: resolves the merge method from configuration,
selects the mutation document from the review edge, and issues the
mutation with the commit headline and pull request id as payload.  The
two effects happen on every attempt, whether or not the mutation fails. -/
def mergeEffects (mergeMethod : MergeMethod) (d : PullRequestDetails) :
    List Effect :=
  [.configRead "MERGE_METHOD",
   .mutation mergeMethod (mutationKind d.reviewEdge)
     ⟨d.commitHeadline, d.pullRequestId⟩]

/-- Info text logged by `mergeWithRetry` when it gives up. -/
def mergeFailureInfo : String :=
  "An error ocurred while merging the Pull Request. This is usually " ++
    "caused by the base branch being out of sync with the target " ++
    "branch. In this case, the base branch must be rebased. Some " ++
    "tools, such as Dependabot, do that automatically."

/-- Embedding of `mergeWithRetry`.  `outcomes r` is the behaviour of the
merge mutation at retry count `r`: `none` for success, `some message` for
a rejection with that error message.  `E` and `W` are the backoff
constants `EXPONENTIAL_BACKOFF` and `MINIMUM_WAIT_TIME` (modelled from
the spec as fixed naturals).  The `try`/`catch` of the source swallows
every failure, so the embedding returns a plain trace. -/
def mergeWithRetry (E W : Nat) (mergeMethod : MergeMethod)
    (outcomes : Nat → Option String) (maximumRetries retryCount : Nat)
    (d : PullRequestDetails) : List Effect :=
  match outcomes retryCount with
  | none => mergeEffects mergeMethod d
  | some message =>
    if h : (shouldRetry message retryCount maximumRetries).1 = true then
      mergeEffects mergeMethod d
        ++ (shouldRetry message retryCount maximumRetries).2
        ++ [.logInfo ("Retrying in " ++ Nat.repr (retryCount ^ E * W) ++ "..."),
            .waitDelay (retryCount ^ E * W)]
        ++ mergeWithRetry E W mergeMethod outcomes maximumRetries (retryCount + 1) d
    else
      mergeEffects mergeMethod d
        ++ (shouldRetry message retryCount maximumRetries).2
        ++ [.logInfo mergeFailureInfo,
            .logDebug ("Original error: Error: " ++ message ++ ".")]
termination_by maximumRetries + 1 - retryCount
decreasing_by
  have hle : retryCount ≤ maximumRetries := by
    by_cases hr : messageIncludes message retryableText = true
    · by_cases hc : retryCount > maximumRetries
      · exfalso
        have hfalse : (shouldRetry message retryCount maximumRetries).1 = false := by
          simp [shouldRetry, hr, hc]
        rw [hfalse] at h
        exact Bool.false_ne_true h
      · omega
    · exfalso
      have hr2 : messageIncludes message retryableText = false := by
        revert hr
        cases messageIncludes message retryableText <;> simp
      have hfalse : (shouldRetry message retryCount maximumRetries).1 = false := by
        simp [shouldRetry, hr2]
      rw [hfalse] at h
      exact Bool.false_ne_true h
  omega

/-- Snapshot of pull request state handed to `tryMerge`
(`PullRequestInformationContinuousIntegrationEnd`). -/
structure PullRequestInformation where
  commitMessageHeadline : String
  mergeableState : String
  mergeStateStatus : Option String
  merged : Bool
  pullRequestId : String
  pullRequestNumber : Nat
  pullRequestState : String
  pullRequestTitle : String
  reviewEdges : List ReviewEdge
  repositoryName : String
  repositoryOwner : String

/-- The two configuration reads `tryMerge` performs on entry. -/
def inputReads : List Effect :=
  [.configRead "GITHUB_LOGIN", .configRead "ENABLED_FOR_MANUAL_CHANGES"]

/-- Embedding of `tryMerge`.  `allowedAuthorName` and
`enabledForManualChangesValue` are the raw values of the `GITHUB_LOGIN`
and `ENABLED_FOR_MANUAL_CHANGES` inputs; `titleOk` models the external
`checkPullRequestTitleForMergePreset`; `pages` is the commit data the
executor would return; `outcomes` is the mutation behaviour per retry
count.  An uncaught JavaScript error surfaces as `Except.error`. -/
def tryMerge (E W : Nat) (allowedAuthorName enabledForManualChangesValue : String)
    (mergeMethod : MergeMethod) (titleOk : String → Bool)
    (pages : List (List PullRequestCommitNode)) (outcomes : Nat → Option String)
    (maximumRetries : Nat) (pr : PullRequestInformation) :
    Except JsError (List Effect) :=
  if pr.mergeableState ≠ "MERGEABLE" then
    .ok (inputReads ++
      [.logInfo ("Pull request is not in a mergeable state: " ++ pr.mergeableState ++ ".")])
  else if pr.merged then
    .ok (inputReads ++ [.logInfo "Pull request is already merged."])
  else if pr.mergeStateStatus ≠ none ∧ pr.mergeStateStatus ≠ some "CLEAN" then
    .ok (inputReads ++
      [.logInfo ("Pull request cannot be merged cleanly. Current state: " ++
        pr.mergeStateStatus.getD "undefined" ++ ".")])
  else if pr.pullRequestState ≠ "OPEN" then
    .ok (inputReads ++
      [.logInfo ("Pull request is not open: " ++ pr.pullRequestState ++ ".")])
  else if titleOk pr.pullRequestTitle = false then
    .ok (inputReads ++ [.logInfo "Pull request version bump is not allowed by PRESET."])
  else if enabledForManualChangesValue = "true" then
    .ok (inputReads ++
      mergeWithRetry E W mergeMethod outcomes maximumRetries 1
        ⟨pr.commitMessageHeadline, pr.pullRequestId, pr.reviewEdges.head?⟩)
  else
    match getIsModified pages with
    | (.error e, _, _) => .error e
    | (.ok true, q, t) =>
      .ok (inputReads ++ List.replicate q .commitQuery ++ t ++
        [.logInfo ("Pull request changes were not made by " ++ allowedAuthorName ++ ".")])
    | (.ok false, q, t) =>
      .ok (inputReads ++ List.replicate q .commitQuery ++ t ++
        mergeWithRetry E W mergeMethod outcomes maximumRetries 1
          ⟨pr.commitMessageHeadline, pr.pullRequestId, pr.reviewEdges.head?⟩)

/-! Trace observers. -/

/-- Is the effect a merge mutation call? -/
def isMutation : Effect → Bool
  | .mutation _ _ _ => true
  | _ => false

/-- Number of merge mutation calls in a trace. -/
def countMutations (t : List Effect) : Nat := t.countP isMutation

/-- Is the effect a commit page query? -/
def isCommitQuery : Effect → Bool
  | .commitQuery => true
  | _ => false

/-- Number of commit page queries in a trace. -/
def countQueries (t : List Effect) : Nat := t.countP isCommitQuery

/-- The backoff waits of a trace, in order. -/
def delaysOf (t : List Effect) : List Nat :=
  t.filterMap fun e =>
    match e with
    | .waitDelay n => some n
    | _ => none

/-- The merge mutation events of a trace, in order. -/
def mutationsOf (t : List Effect) : List Effect := t.filter isMutation

/-- The mutation kinds used in a trace, in order. -/
def mutationKinds (t : List Effect) : List MutationKind :=
  t.filterMap fun e =>
    match e with
    | .mutation _ k _ => some k
    | _ => none

/-- Is the effect a read of the MERGE_METHOD configuration input? -/
def isMergeMethodRead : Effect → Bool
  | .configRead n => n == "MERGE_METHOD"
  | _ => false

/-- Number of MERGE_METHOD configuration reads in a trace. -/
def countMergeMethodReads (t : List Effect) : Nat := t.countP isMergeMethodRead

/-- Blanks the text of a log effect, keeping everything else. -/
def eraseLogText : Effect → Effect
  | .logInfo _ => .logInfo ""
  | .logWarning _ => .logWarning ""
  | .logDebug _ => .logDebug ""
  | e => e

/-- Result of a run with all log texts blanked. -/
def eraseLogs : Except JsError (List Effect) → Except JsError (List Effect)
  | .ok t => .ok (t.map eraseLogText)
  | .error e => .error e

/-! Proof-side reference definitions. -/

/-- Reference form of the detector loop over the flat list of commits the
iterator yields after the first: used to relate the paged run to the
commit sequence. -/
def detectList (first : PullRequestCommitNode) :
    List PullRequestCommitNode → Except JsError Bool × List Effect
  | [] => (.ok false, [])
  | c :: cs =>
    match checkCommit first c with
    | some r => r
    | none => detectList first cs

/-- The delays a run of `n` consecutive retryable failures starting at
retry count `r` should produce: `r ^ E * W`, `(r + 1) ^ E * W`, .... -/
def expectedDelays (E W : Nat) : Nat → Nat → List Nat
  | _, 0 => []
  | r, n + 1 => r ^ E * W :: expectedDelays E W (r + 1) n

/-! Concrete data used by counterexamples and witnesses. -/

/-- A commit by octocat with a valid signature. -/
def commitOctoSigned : PullRequestCommitNode :=
  ⟨⟨some ⟨some ⟨"octocat"⟩⟩, some ⟨true⟩⟩⟩

/-- A commit by octocat with a null signature. -/
def commitOctoUnsigned : PullRequestCommitNode :=
  ⟨⟨some ⟨some ⟨"octocat"⟩⟩, none⟩⟩

/-- A validly signed commit whose author object is null. -/
def commitNoAuthor : PullRequestCommitNode :=
  ⟨⟨none, some ⟨true⟩⟩⟩

/-- A validly signed commit by a different author. -/
def commitMallorySigned : PullRequestCommitNode :=
  ⟨⟨some ⟨some ⟨"mallory"⟩⟩, some ⟨true⟩⟩⟩

/-- A snapshot that passes the first five gate preconditions. -/
def prMergeable : PullRequestInformation where
  commitMessageHeadline := "chore(deps): bump lib from 1.0.0 to 1.0.1"
  mergeableState := "MERGEABLE"
  mergeStateStatus := none
  merged := false
  pullRequestId := "PR_kwDOA1"
  pullRequestNumber := 1
  pullRequestState := "OPEN"
  pullRequestTitle := "chore(deps): bump lib from 1.0.0 to 1.0.1"
  reviewEdges := []
  repositoryName := "merge-me-action"
  repositoryOwner := "Keloran"

/-! Detector lemmas: the paged run agrees with the flat commit sequence. -/

theorem scanPage_none_detect (first : PullRequestCommitNode) :
    ∀ (l rest : List PullRequestCommitNode), scanPage first l = none →
      detectList first (l ++ rest) = detectList first rest := by
  intro l
  induction l with
  | nil => intro rest _; rfl
  | cons c cs ih =>
    intro rest h
    rw [List.cons_append]
    cases hc : checkCommit first c with
    | some v =>
      simp only [scanPage, hc] at h
      simp at h
    | none =>
      simp only [detectList, hc]
      exact ih rest (by simpa only [scanPage, hc] using h)

theorem scanPage_some_detect (first : PullRequestCommitNode) :
    ∀ (l rest : List PullRequestCommitNode) (v : Except JsError Bool × List Effect),
      scanPage first l = some v → detectList first (l ++ rest) = v := by
  intro l
  induction l with
  | nil => intro rest v h; simp [scanPage] at h
  | cons c cs ih =>
    intro rest v h
    rw [List.cons_append]
    cases hc : checkCommit first c with
    | some w =>
      simp only [scanPage, hc] at h
      simp only [detectList, hc]
      exact Option.some.inj h
    | none =>
      simp only [detectList, hc]
      exact ih rest v (by simpa only [scanPage, hc] using h)

theorem scanPages_detect (first : PullRequestCommitNode) :
    ∀ ps : List (List PullRequestCommitNode),
      ((scanPages first ps).1, (scanPages first ps).2.2) =
        detectList first ps.flatten := by
  intro ps
  induction ps with
  | nil => rfl
  | cons p ps ih =>
    cases hp : scanPage first p with
    | some v =>
      obtain ⟨r, t⟩ := v
      simp only [scanPages, hp, List.flatten_cons]
      exact (scanPage_some_detect first p ps.flatten (r, t) hp).symm
    | none =>
      simp only [scanPages, hp, List.flatten_cons]
      rw [scanPage_none_detect first p ps.flatten hp]
      exact ih

theorem scanPages_bound (first : PullRequestCommitNode) :
    ∀ ps : List (List PullRequestCommitNode),
      (scanPages first ps).2.1 ≤ ps.length := by
  intro ps
  induction ps with
  | nil => simp [scanPages]
  | cons p ps ih =>
    cases hp : scanPage first p with
    | some v =>
      obtain ⟨r, t⟩ := v
      simp [scanPages, hp]
    | none =>
      simp only [scanPages, hp, List.length_cons]
      omega

theorem scanPages_append (first : PullRequestCommitNode) :
    ∀ (ps rest : List (List PullRequestCommitNode)),
      (scanPages first ps).1 ≠ Except.ok false →
      scanPages first (ps ++ rest) = scanPages first ps := by
  intro ps
  induction ps with
  | nil => intro rest h; exact absurd rfl h
  | cons p ps ih =>
    intro rest h
    rw [List.cons_append]
    cases hp : scanPage first p with
    | some v =>
      obtain ⟨r, t⟩ := v
      simp only [scanPages, hp]
    | none =>
      simp only [scanPages, hp] at h ⊢
      rw [ih rest h]

theorem takeFirst_cons :
    ∀ (pages : List (List PullRequestCommitNode)) (x : PullRequestCommitNode)
      (xs : List PullRequestCommitNode),
      pages.flatten = x :: xs →
      ∃ buf ps n, takeFirst pages = (some (x, buf, ps), n) ∧
        buf ++ ps.flatten = xs ∧ n + ps.length = pages.length ∧ 1 ≤ n := by
  intro pages
  induction pages with
  | nil => intro x xs h; simp at h
  | cons p qs ih =>
    intro x xs h
    cases p with
    | nil =>
      simp only [List.flatten_cons, List.nil_append] at h
      obtain ⟨buf, ps, n, h1, h2, h3, h4⟩ := ih x xs h
      refine ⟨buf, ps, n + 1, ?_, h2, ?_, by omega⟩
      · simp only [takeFirst, h1]
      · simp only [List.length_cons]; omega
    | cons c rest =>
      simp only [List.flatten_cons, List.cons_append] at h
      obtain ⟨hx, hxs⟩ := List.cons.inj h
      subst hx
      exact ⟨rest, qs, 1, rfl, hxs, by rw [List.length_cons]; omega, le_refl 1⟩

theorem takeFirst_append :
    ∀ (P rest : List (List PullRequestCommitNode)) (x : PullRequestCommitNode)
      (buf : List PullRequestCommitNode) (ps : List (List PullRequestCommitNode)) (n : Nat),
      takeFirst P = (some (x, buf, ps), n) →
      takeFirst (P ++ rest) = (some (x, buf, ps ++ rest), n) := by
  intro P
  induction P with
  | nil => intro rest x buf ps n h; simp [takeFirst] at h
  | cons p qs ih =>
    intro rest x buf ps n h
    cases p with
    | nil =>
      rw [List.cons_append]
      simp only [takeFirst] at h ⊢
      rw [Prod.mk.injEq] at h
      obtain ⟨h1, h2⟩ := h
      have hq : takeFirst qs = (some (x, buf, ps), (takeFirst qs).2) := by
        rw [← h1]
      rw [ih rest x buf ps (takeFirst qs).2 hq, h2]
    | cons c rest2 =>
      rw [List.cons_append]
      simp only [takeFirst, Prod.mk.injEq, Option.some.injEq] at h ⊢
      obtain ⟨⟨hx, hbuf, hps⟩, hn⟩ := h
      subst hx; subst hbuf; subst hps
      exact ⟨⟨rfl, rfl, rfl⟩, hn⟩

theorem getIsModified_detect (pages : List (List PullRequestCommitNode))
    (first : PullRequestCommitNode) (rest : List PullRequestCommitNode)
    (h : pages.flatten = first :: rest) :
    ((getIsModified pages).1, (getIsModified pages).2.2) = detectList first rest := by
  obtain ⟨buf, ps, n, h1, h2, _, _⟩ := takeFirst_cons pages first rest h
  cases hp : scanPage first buf with
  | some v =>
    obtain ⟨r, t⟩ := v
    simp only [getIsModified, h1, hp]
    have hd := scanPage_some_detect first buf ps.flatten (r, t) hp
    rw [h2] at hd
    exact hd.symm
  | none =>
    simp only [getIsModified, h1, hp]
    have hd := scanPage_none_detect first buf ps.flatten hp
    rw [h2] at hd
    exact (scanPages_detect first ps).trans hd.symm

theorem checkCommit_trace (first c : PullRequestCommitNode)
    (v : Except JsError Bool × List Effect) (h : checkCommit first c = some v) :
    v.2 = [] ∨ v.2 = [Effect.logWarning signatureWarning] := by
  unfold checkCommit at h
  split at h
  · obtain rfl := Option.some.inj h
    right; rfl
  · split at h
    · split at h
      · obtain rfl := Option.some.inj h
        left; rfl
      · split at h
        · obtain rfl := Option.some.inj h
          left; rfl
        · split at h
          · exact absurd h (by simp)
          · obtain rfl := Option.some.inj h
            left; rfl
    · obtain rfl := Option.some.inj h
      right; rfl

theorem scanPage_trace (first : PullRequestCommitNode) :
    ∀ (l : List PullRequestCommitNode) (v : Except JsError Bool × List Effect),
      scanPage first l = some v →
      v.2 = [] ∨ v.2 = [Effect.logWarning signatureWarning] := by
  intro l
  induction l with
  | nil => intro v h; simp [scanPage] at h
  | cons c cs ih =>
    intro v h
    cases hc : checkCommit first c with
    | some w =>
      simp only [scanPage, hc] at h
      have hw := Option.some.inj h
      subst hw
      exact checkCommit_trace first c _ hc
    | none =>
      simp only [scanPage, hc] at h
      exact ih v h

theorem scanPages_trace (first : PullRequestCommitNode) :
    ∀ ps : List (List PullRequestCommitNode),
      (scanPages first ps).2.2 = [] ∨
      (scanPages first ps).2.2 = [Effect.logWarning signatureWarning] := by
  intro ps
  induction ps with
  | nil => left; rfl
  | cons p ps ih =>
    cases hp : scanPage first p with
    | some v =>
      obtain ⟨r, t⟩ := v
      simp only [scanPages, hp]
      exact scanPage_trace first p (r, t) hp
    | none =>
      simp only [scanPages, hp]
      exact ih

theorem getIsModified_trace (pages : List (List PullRequestCommitNode)) :
    (getIsModified pages).2.2 = [] ∨
    (getIsModified pages).2.2 = [Effect.logWarning signatureWarning] ∨
    (getIsModified pages).2.2 = [Effect.logWarning noCommitsWarning] := by
  unfold getIsModified
  split
  · right; right; rfl
  · rename_i x first buf ps n hx
    cases hp : scanPage first buf with
    | some v =>
      obtain ⟨r, t⟩ := v
      simp only [hp]
      rcases scanPage_trace first buf (r, t) hp with h | h
      · left; exact h
      · right; left; exact h
    | none =>
      simp only [hp]
      rcases scanPages_trace first ps with h | h
      · left; exact h
      · right; left; exact h

/-- Traces made only of log lines have no mutations and no queries. -/
theorem warnings_no_mutation_no_query (t : List Effect)
    (h : t = [] ∨ t = [Effect.logWarning signatureWarning] ∨
      t = [Effect.logWarning noCommitsWarning]) :
    countMutations t = 0 ∧ countQueries t = 0 := by
  rcases h with rfl | rfl | rfl <;> exact ⟨rfl, rfl⟩

/-! Claims about the Modification Detector. -/

/-- Claim C1, counterexample: for the one-commit sequence whose only (and
first) commit has a null signature, `getIsModified` returns `false`, not
`true` as the claim states — the first commit is consumed by the initial
`iterator.next()` and the single-pass iterator never re-examines it in
the loop. -/
theorem firstCommitNullSignature_counterexample :
    (getIsModified [[commitOctoUnsigned]]).1 = Except.ok false ∧
    (getIsModified [[commitOctoUnsigned]]).1 ≠ Except.ok true := by
  constructor
  · rfl
  · intro h
    have e1 : (Except.ok false : Except JsError Bool) =
        (getIsModified [[commitOctoUnsigned]]).1 := rfl
    have e2 := e1.trans h
    exact Bool.noConfusion (Except.ok.inj e2)

/-- Claim C1, amended: every commit after the first is checked for a valid
signature, and an unsigned or invalidly signed commit there yields `true`;
the first commit itself is never re-examined (see the counterexample).
Stated for the first commit the loop sees, the second of the sequence. -/
theorem unsigned_commit_after_first_detected
    (pages : List (List PullRequestCommitNode))
    (first c : PullRequestCommitNode) (rest : List PullRequestCommitNode)
    (h : pages.flatten = first :: c :: rest)
    (hsig : c.commit.signature = none ∨
      ∃ s, c.commit.signature = some s ∧ s.isValid = false) :
    (getIsModified pages).1 = Except.ok true := by
  have hd := getIsModified_detect pages first (c :: rest) h
  have hc : checkCommit first c = some (.ok true, [.logWarning signatureWarning]) := by
    rcases hsig with hs | ⟨s, hs, hv⟩
    · simp [checkCommit, hs]
    · simp [checkCommit, hs, hv]
  have : detectList first (c :: rest) = (.ok true, [.logWarning signatureWarning]) := by
    simp only [detectList, hc]
  rw [this] at hd
  exact congrArg Prod.fst hd

/-- Witness for the amended claim C1 at a concrete two-commit sequence. -/
theorem unsigned_commit_after_first_detected_witness :
    (getIsModified [[commitOctoSigned, commitOctoUnsigned]]).1 = Except.ok true :=
  unsigned_commit_after_first_detected [[commitOctoSigned, commitOctoUnsigned]]
    commitOctoSigned commitOctoUnsigned [] rfl (Or.inl rfl)

/-- Claim C3, counterexample: a validly signed commit with a null author
object makes `getIsModified` throw a `TypeError` (reading
`author.user.login` of `null`) instead of returning `true`. -/
theorem absent_author_crashes_counterexample :
    (getIsModified [[commitOctoSigned, commitNoAuthor]]).1 =
      Except.error JsError.typeError ∧
    (getIsModified [[commitOctoSigned, commitNoAuthor]]).1 ≠ Except.ok true := by
  constructor
  · rfl
  · intro h
    have e1 : (Except.error JsError.typeError : Except JsError Bool) =
        (getIsModified [[commitOctoSigned, commitNoAuthor]]).1 := rfl
    have e2 := e1.trans h
    exact Except.noConfusion e2

/-- Claim C3, amended: a commit reached by the loop whose author object,
or whose nested user object, is absent makes the Modification Detector
throw a `TypeError` (which propagates), rather than returning `true`. -/
theorem absent_author_raises_typeError
    (pages : List (List PullRequestCommitNode))
    (first c : PullRequestCommitNode) (rest : List PullRequestCommitNode)
    (h : pages.flatten = first :: c :: rest)
    (hsig : ∃ s, c.commit.signature = some s ∧ s.isValid = true)
    (hauthor : c.commit.author = none ∨
      ∃ a, c.commit.author = some a ∧ a.user = none) :
    (getIsModified pages).1 = Except.error JsError.typeError := by
  have hd := getIsModified_detect pages first (c :: rest) h
  obtain ⟨s, hs, hv⟩ := hsig
  have hlogin : authorLogin c.commit = Except.error JsError.typeError := by
    rcases hauthor with ha | ⟨a, ha, hu⟩
    · simp [authorLogin, ha]
    · simp [authorLogin, ha, hu]
  have hc : checkCommit first c = some (.error JsError.typeError, []) := by
    simp [checkCommit, hs, hv, hlogin]
  have : detectList first (c :: rest) = (.error JsError.typeError, []) := by
    simp only [detectList, hc]
  rw [this] at hd
  exact congrArg Prod.fst hd

/-- Witness for the amended claim C3 at a concrete two-commit sequence. -/
theorem absent_author_raises_typeError_witness :
    (getIsModified [[commitOctoSigned, commitNoAuthor]]).1 =
      Except.error JsError.typeError :=
  absent_author_raises_typeError [[commitOctoSigned, commitNoAuthor]]
    commitOctoSigned commitNoAuthor [] rfl ⟨⟨true⟩, rfl, rfl⟩ (Or.inl rfl)

/-- Claim C8 (confirmed): when the second commit of the sequence carries a
valid signature but an author login different from the first commit's,
the detector returns `true`, and the run over `P ++ more` issues exactly
the queries of the run over `P` alone — at most one query per page of
`P`, the prefix of pages ending at the page holding the differing commit;
the pages of `more` beyond it are never fetched. -/
theorem author_mismatch_short_circuits
    (P more : List (List PullRequestCommitNode))
    (first c : PullRequestCommitNode) (extra : List PullRequestCommitNode)
    (h : P.flatten = first :: c :: extra)
    (hsig1 : ∃ s, first.commit.signature = some s ∧ s.isValid = true)
    (hsigc : ∃ s, c.commit.signature = some s ∧ s.isValid = true)
    (hdiff : ∃ l lc, authorLogin first.commit = Except.ok l ∧
      authorLogin c.commit = Except.ok lc ∧ lc ≠ l) :
    (getIsModified (P ++ more)).1 = Except.ok true ∧
    (getIsModified (P ++ more)).2.1 = (getIsModified P).2.1 ∧
    (getIsModified P).2.1 ≤ P.length := by
  obtain ⟨s, hs, hv⟩ := hsigc
  obtain ⟨l, lc, hl, hlc, hne⟩ := hdiff
  have hc : checkCommit first c = some (.ok true, []) := by
    simp [checkCommit, hs, hv, hlc, hl, hne]
  have hstop : detectList first (c :: extra) = (.ok true, []) := by
    simp only [detectList, hc]
  obtain ⟨buf, ps, n, h1, h2, h3, h4⟩ := takeFirst_cons P first (c :: extra) h
  have h1app := takeFirst_append P more first buf ps n h1
  cases hp : scanPage first buf with
  | some v =>
    obtain ⟨r, t⟩ := v
    have hrv : (r, t) = (Except.ok true, ([] : List Effect)) := by
      rw [← scanPage_some_detect first buf ps.flatten (r, t) hp, h2, hstop]
    simp only [getIsModified, h1, h1app, hp]
    refine ⟨?_, ?_, ?_⟩
    · exact congrArg Prod.fst hrv
    · trivial
    · omega
  | none =>
    have hsps : ((scanPages first ps).1, (scanPages first ps).2.2) =
        (Except.ok true, ([] : List Effect)) := by
      rw [scanPages_detect first ps, ← scanPage_none_detect first buf ps.flatten hp,
        h2, hstop]
    have hne2 : (scanPages first ps).1 ≠ Except.ok false := by
      have := congrArg Prod.fst hsps
      simp only at this
      rw [this]
      simp
    simp only [getIsModified, h1, h1app, hp, scanPages_append first ps more hne2]
    refine ⟨congrArg Prod.fst hsps, ?_, ?_⟩
    · trivial
    · have := scanPages_bound first ps
      omega

/-- Witness for claim C8: the differing commit sits on the second page and
a third page exists; the run answers `true` after two queries. -/
theorem author_mismatch_short_circuits_witness :
    (getIsModified ([[commitOctoSigned], [commitMallorySigned]] ++ [[commitOctoSigned]])).1 =
      Except.ok true ∧
    (getIsModified ([[commitOctoSigned], [commitMallorySigned]] ++ [[commitOctoSigned]])).2.1 =
      (getIsModified [[commitOctoSigned], [commitMallorySigned]]).2.1 ∧
    (getIsModified [[commitOctoSigned], [commitMallorySigned]]).2.1 ≤
      ([[commitOctoSigned], [commitMallorySigned]] :
        List (List PullRequestCommitNode)).length :=
  author_mismatch_short_circuits [[commitOctoSigned], [commitMallorySigned]]
    [[commitOctoSigned]] commitOctoSigned commitMallorySigned [] rfl
    ⟨⟨true⟩, rfl, rfl⟩ ⟨⟨true⟩, rfl, rfl⟩
    ⟨"octocat", "mallory", rfl, rfl, by decide⟩

/-! Retry-engine lemmas. -/

theorem shouldRetry_fst (message : String) (r max : Nat) :
    (shouldRetry message r max).1 =
      (messageIncludes message retryableText && decide (r ≤ max)) := by
  unfold shouldRetry
  by_cases hr : messageIncludes message retryableText = true
  · by_cases hc : r > max
    · have hn : ¬ r ≤ max := by omega
      simp [hr, hc, hn]
    · have hl : r ≤ max := by omega
      simp [hr, hc, hl]
  · have hr2 : messageIncludes message retryableText = false := by
      revert hr
      cases messageIncludes message retryableText <;> simp
    simp [hr2]

theorem shouldRetry_retry_eq (message : String) (r max : Nat)
    (hm : messageIncludes message retryableText = true) (hr : r ≤ max) :
    shouldRetry message r max = (true, []) := by
  have hgt : ¬ r > max := by omega
  simp [shouldRetry, hm, hgt]

theorem shouldRetry_exhaust_eq (message : String) (r max : Nat)
    (hm : messageIncludes message retryableText = true) (hgt : max < r) :
    shouldRetry message r max = (false, [.logInfo (exhaustedMessage r)]) := by
  simp [shouldRetry, hm, hgt]

theorem shouldRetry_snd (message : String) (r max : Nat) :
    (shouldRetry message r max).2 = [] ∨
    (shouldRetry message r max).2 = [Effect.logInfo (exhaustedMessage r)] := by
  unfold shouldRetry
  dsimp only
  split
  · right; rfl
  · left; rfl

theorem mergeWithRetry_success (E W : Nat) (mm : MergeMethod)
    (outcomes : Nat → Option String) (max r : Nat) (d : PullRequestDetails)
    (h : outcomes r = none) :
    mergeWithRetry E W mm outcomes max r d = mergeEffects mm d := by
  conv_lhs => rw [mergeWithRetry.eq_def]
  rw [h]

theorem mergeWithRetry_stop (E W : Nat) (mm : MergeMethod)
    (outcomes : Nat → Option String) (max r : Nat) (d : PullRequestDetails)
    (m : String) (h : outcomes r = some m)
    (hs : (shouldRetry m r max).1 = false) :
    mergeWithRetry E W mm outcomes max r d =
      mergeEffects mm d ++ (shouldRetry m r max).2 ++
        [.logInfo mergeFailureInfo,
         .logDebug ("Original error: Error: " ++ m ++ ".")] := by
  conv_lhs => rw [mergeWithRetry.eq_def]
  simp only [h]
  rw [dif_neg (by simp [hs])]

theorem mergeWithRetry_retry (E W : Nat) (mm : MergeMethod)
    (outcomes : Nat → Option String) (max r : Nat) (d : PullRequestDetails)
    (m : String) (h : outcomes r = some m)
    (hm : messageIncludes m retryableText = true) (hr : r ≤ max) :
    mergeWithRetry E W mm outcomes max r d =
      mergeEffects mm d ++
        [.logInfo ("Retrying in " ++ Nat.repr (r ^ E * W) ++ "..."),
         .waitDelay (r ^ E * W)] ++
        mergeWithRetry E W mm outcomes max (r + 1) d := by
  have hs := shouldRetry_retry_eq m r max hm hr
  conv_lhs => rw [mergeWithRetry.eq_def]
  simp only [h]
  rw [dif_pos (by rw [hs])]
  rw [hs]
  simp

theorem mergeWithRetry_always_aux (E W : Nat) (mm : MergeMethod)
    (outcomes : Nat → Option String) (max : Nat) (d : PullRequestDetails)
    (hfail : ∀ k, ∃ m, outcomes k = some m ∧ messageIncludes m retryableText = true) :
    ∀ n r, max + 1 - r ≤ n → r ≤ max + 1 →
      countMutations (mergeWithRetry E W mm outcomes max r d) = max + 2 - r ∧
      delaysOf (mergeWithRetry E W mm outcomes max r d) =
        expectedDelays E W r (max + 1 - r) ∧
      Effect.logInfo (exhaustedMessage (max + 1)) ∈
        mergeWithRetry E W mm outcomes max r d := by
  have base : countMutations (mergeWithRetry E W mm outcomes max (max + 1) d) = 1 ∧
      delaysOf (mergeWithRetry E W mm outcomes max (max + 1) d) = [] ∧
      Effect.logInfo (exhaustedMessage (max + 1)) ∈
        mergeWithRetry E W mm outcomes max (max + 1) d := by
    obtain ⟨m, hm, hmr⟩ := hfail (max + 1)
    have hs := shouldRetry_exhaust_eq m (max + 1) max hmr (by omega)
    rw [mergeWithRetry_stop E W mm outcomes max (max + 1) d m hm (by rw [hs]), hs]
    refine ⟨?_, ?_, ?_⟩
    · simp [countMutations, mergeEffects, isMutation, List.countP_append, List.countP_cons]
    · simp [delaysOf, List.filterMap_append, mergeEffects]
    · simp [mergeEffects]
  intro n
  induction n with
  | zero =>
    intro r h0 h1
    have hr : r = max + 1 := by omega
    subst hr
    refine ⟨?_, ?_, base.2.2⟩
    · rw [base.1]; omega
    · rw [base.2.1, Nat.sub_self]; rfl
  | succ n ih =>
    intro r h0 h1
    by_cases hr : r = max + 1
    · subst hr
      refine ⟨?_, ?_, base.2.2⟩
      · rw [base.1]; omega
      · rw [base.2.1, Nat.sub_self]; rfl
    · have hrle : r ≤ max := by omega
      obtain ⟨m, hm, hmr⟩ := hfail r
      rw [mergeWithRetry_retry E W mm outcomes max r d m hm hmr hrle]
      obtain ⟨ih1, ih2, ih3⟩ := ih (r + 1) (by omega) (by omega)
      refine ⟨?_, ?_, ?_⟩
      · simp only [countMutations, List.countP_append] at ih1 ⊢
        simp [mergeEffects, isMutation, List.countP_cons]
        omega
      · simp only [delaysOf, List.filterMap_append] at ih2 ⊢
        simp only [mergeEffects]
        simp [ih2]
        have hk : max + 1 - r = (max + 1 - (r + 1)) + 1 := by omega
        rw [hk]
        simp [expectedDelays]
      · simp only [List.mem_append]
        right
        exact ih3

/-- Claim C4 (confirmed): when every mutation attempt fails with a message
containing "Base branch was modified.", `mergeWithRetry` starting at retry
count 1 issues exactly `maximumRetries + 1` mutation attempts, waits
`1 ^ E * W`, `2 ^ E * W`, ... between consecutive attempts (one delay per
retry, `maximumRetries` in total — for `maximumRetries = 2` that is three
attempts with delays `1 ^ E * W` and `2 ^ E * W`), and finally logs that
retries are exhausted at attempt `maximumRetries + 1`. -/
theorem mergeWithRetry_exhausts_retries (E W : Nat) (mm : MergeMethod)
    (outcomes : Nat → Option String) (max : Nat) (d : PullRequestDetails)
    (hfail : ∀ k, ∃ m, outcomes k = some m ∧ messageIncludes m retryableText = true) :
    countMutations (mergeWithRetry E W mm outcomes max 1 d) = max + 1 ∧
    delaysOf (mergeWithRetry E W mm outcomes max 1 d) = expectedDelays E W 1 max ∧
    Effect.logInfo (exhaustedMessage (max + 1)) ∈
      mergeWithRetry E W mm outcomes max 1 d := by
  obtain ⟨h1, h2, h3⟩ :=
    mergeWithRetry_always_aux E W mm outcomes max d hfail (max + 1 - 1) 1
      (le_refl _) (by omega)
  refine ⟨by omega, ?_, h3⟩
  rw [h2, Nat.add_sub_cancel]

/-- The merge payload used by concrete retry-engine runs below. -/
def detailsW : PullRequestDetails :=
  ⟨"chore(deps): bump lib from 1.0.0 to 1.0.1", "PR_kwDOA1", none⟩

/-- Witness for claim C4: three attempts, delays `1 ^ 3 * 100 = 100` and
`2 ^ 3 * 100 = 800`, and the exhausted log line, for `maximumRetries = 2`. -/
theorem mergeWithRetry_exhausts_retries_witness :
    countMutations (mergeWithRetry 3 100 MergeMethod.MERGE
      (fun _ => some "Base branch was modified.") 2 1 detailsW) = 2 + 1 ∧
    delaysOf (mergeWithRetry 3 100 MergeMethod.MERGE
      (fun _ => some "Base branch was modified.") 2 1 detailsW) =
      expectedDelays 3 100 1 2 ∧
    Effect.logInfo (exhaustedMessage (2 + 1)) ∈
      mergeWithRetry 3 100 MergeMethod.MERGE
        (fun _ => some "Base branch was modified.") 2 1 detailsW :=
  mergeWithRetry_exhausts_retries 3 100 MergeMethod.MERGE
    (fun _ => some "Base branch was modified.") 2 detailsW
    (fun _ => ⟨"Base branch was modified.", rfl, by decide⟩)

/-! Shape of every retry trace: all attempts issue the same mutation, and
one MERGE_METHOD configuration read happens per attempt. -/

theorem shape_success (E W : Nat) (mm : MergeMethod)
    (outcomes : Nat → Option String) (max r : Nat) (d : PullRequestDetails)
    (ho : outcomes r = none) :
    mutationsOf (mergeWithRetry E W mm outcomes max r d) =
      List.replicate (countMutations (mergeWithRetry E W mm outcomes max r d))
        (Effect.mutation mm (mutationKind d.reviewEdge)
          ⟨d.commitHeadline, d.pullRequestId⟩) ∧
    countMergeMethodReads (mergeWithRetry E W mm outcomes max r d) =
      countMutations (mergeWithRetry E W mm outcomes max r d) := by
  rw [mergeWithRetry_success E W mm outcomes max r d ho]
  constructor
  · simp [mutationsOf, countMutations, mergeEffects, isMutation,
      List.countP_cons, List.replicate]
  · simp [countMergeMethodReads, countMutations, mergeEffects, isMutation,
      isMergeMethodRead, List.countP_cons]

theorem shape_stop (E W : Nat) (mm : MergeMethod)
    (outcomes : Nat → Option String) (max r : Nat) (d : PullRequestDetails)
    (m : String) (ho : outcomes r = some m)
    (hfst : (shouldRetry m r max).1 = false) :
    mutationsOf (mergeWithRetry E W mm outcomes max r d) =
      List.replicate (countMutations (mergeWithRetry E W mm outcomes max r d))
        (Effect.mutation mm (mutationKind d.reviewEdge)
          ⟨d.commitHeadline, d.pullRequestId⟩) ∧
    countMergeMethodReads (mergeWithRetry E W mm outcomes max r d) =
      countMutations (mergeWithRetry E W mm outcomes max r d) := by
  rw [mergeWithRetry_stop E W mm outcomes max r d m ho hfst]
  rcases shouldRetry_snd m r max with h2 | h2 <;> rw [h2]
  · constructor
    · simp [mutationsOf, countMutations, mergeEffects, isMutation,
        List.countP_append, List.countP_cons, List.filter_append, List.replicate]
    · simp [countMergeMethodReads, countMutations, mergeEffects, isMutation,
        isMergeMethodRead, List.countP_append, List.countP_cons]
  · constructor
    · simp [mutationsOf, countMutations, mergeEffects, isMutation,
        List.countP_append, List.countP_cons, List.filter_append, List.replicate]
    · simp [countMergeMethodReads, countMutations, mergeEffects, isMutation,
        isMergeMethodRead, List.countP_append, List.countP_cons]

theorem mergeWithRetry_shape_aux (E W : Nat) (mm : MergeMethod)
    (outcomes : Nat → Option String) (max : Nat) (d : PullRequestDetails) :
    ∀ n r, max + 1 - r ≤ n →
      mutationsOf (mergeWithRetry E W mm outcomes max r d) =
        List.replicate (countMutations (mergeWithRetry E W mm outcomes max r d))
          (Effect.mutation mm (mutationKind d.reviewEdge)
            ⟨d.commitHeadline, d.pullRequestId⟩) ∧
      countMergeMethodReads (mergeWithRetry E W mm outcomes max r d) =
        countMutations (mergeWithRetry E W mm outcomes max r d) := by
  intro n
  induction n with
  | zero =>
    intro r h0
    rcases ho : outcomes r with _ | m
    · exact shape_success E W mm outcomes max r d ho
    · refine shape_stop E W mm outcomes max r d m ho ?_
      rw [shouldRetry_fst]
      have : ¬ r ≤ max := by omega
      simp [this]
  | succ n ih =>
    intro r h0
    rcases ho : outcomes r with _ | m
    · exact shape_success E W mm outcomes max r d ho
    · by_cases hfst : (shouldRetry m r max).1 = true
      · have hsplit := hfst
        rw [shouldRetry_fst, Bool.and_eq_true] at hsplit
        obtain ⟨hmr, hrle⟩ := hsplit
        have hr : r ≤ max := of_decide_eq_true hrle
        rw [mergeWithRetry_retry E W mm outcomes max r d m ho hmr hr]
        obtain ⟨ih1, ih2⟩ := ih (r + 1) (by omega)
        constructor
        · simp only [mutationsOf, List.filter_append, countMutations,
            List.countP_append] at ih1 ⊢
          simp [mergeEffects, isMutation, List.countP_cons, List.filter_cons,
            List.replicate]
          rw [Nat.add_comm 1 (List.countP isMutation
            (mergeWithRetry E W mm outcomes max (r + 1) d)),
            List.replicate_succ, ih1]
        · simp only [countMergeMethodReads, countMutations,
            List.countP_append] at ih2 ⊢
          simp [mergeEffects, isMutation, isMergeMethodRead, List.countP_cons]
          omega
      · have hf : (shouldRetry m r max).1 = false := by
          revert hfst
          cases (shouldRetry m r max).1 <;> simp
        exact shape_stop E W mm outcomes max r d m ho hf

/-- Claim C9, counterexample: with `maximumRetries = 1` and a mutation that
always fails with the retryable message, the run performs two attempts and
reads the MERGE_METHOD configuration input twice — `parseInputMergeMethod`
runs inside `merge` on every attempt, so the merge method is not resolved
just once before the attempts. -/
theorem mergeMethod_resolved_per_attempt_counterexample :
    countMergeMethodReads (mergeWithRetry 3 100 MergeMethod.MERGE
      (fun _ => some "Base branch was modified.") 1 1 detailsW) = 2 ∧
    ¬ countMergeMethodReads (mergeWithRetry 3 100 MergeMethod.MERGE
      (fun _ => some "Base branch was modified.") 1 1 detailsW) ≤ 1 := by
  have hshape := (mergeWithRetry_shape_aux 3 100 MergeMethod.MERGE
    (fun _ => some "Base branch was modified.") 1 detailsW 1 1 (by omega)).2
  have halways := (mergeWithRetry_always_aux 3 100 MergeMethod.MERGE
    (fun _ => some "Base branch was modified.") 1 detailsW
    (fun _ => ⟨"Base branch was modified.", rfl, by decide⟩) 1 1
    (by omega) (by omega)).1
  constructor
  · omega
  · omega

/-- Claim C9, amended: the merge method is re-resolved from configuration
within each attempt (one MERGE_METHOD read per mutation attempt), and
since the configuration and the payload are fixed for the run, every
mutation event of one `mergeWithRetry` run is identical: the same method,
the same variant chosen from the review edge, and the same commit
headline and pull request id. -/
theorem mutation_constant_across_retries (E W : Nat) (mm : MergeMethod)
    (outcomes : Nat → Option String) (max r : Nat) (d : PullRequestDetails) :
    mutationsOf (mergeWithRetry E W mm outcomes max r d) =
      List.replicate (countMutations (mergeWithRetry E W mm outcomes max r d))
        (Effect.mutation mm (mutationKind d.reviewEdge)
          ⟨d.commitHeadline, d.pullRequestId⟩) ∧
    countMergeMethodReads (mergeWithRetry E W mm outcomes max r d) =
      countMutations (mergeWithRetry E W mm outcomes max r d) :=
  mergeWithRetry_shape_aux E W mm outcomes max d (max + 1 - r) r (le_refl _)

/-! Helpers for reasoning about tryMerge traces. -/

theorem countP_replicate_zero {α : Type} (p : α → Bool) (a : α) (n : Nat)
    (h : p a = false) : List.countP p (List.replicate n a) = 0 := by
  induction n with
  | zero => rfl
  | succ n ih =>
    rw [List.replicate_succ, List.countP_cons, ih, h]
    simp

theorem getIsModified_trace_counts (pages : List (List PullRequestCommitNode)) :
    countMutations (getIsModified pages).2.2 = 0 ∧
    countQueries (getIsModified pages).2.2 = 0 :=
  warnings_no_mutation_no_query _ (getIsModified_trace pages)

theorem mutationKinds_mem (t : List Effect) (k : MutationKind)
    (h : k ∈ mutationKinds t) : ∃ m p, Effect.mutation m k p ∈ t := by
  unfold mutationKinds at h
  rw [List.mem_filterMap] at h
  obtain ⟨e, he, hk⟩ := h
  cases e with
  | mutation m0 k0 p0 =>
    simp only [Option.some.injEq] at hk
    subst hk
    exact ⟨m0, p0, he⟩
  | configRead n => simp at hk
  | commitQuery => simp at hk
  | logInfo s => simp at hk
  | logWarning s => simp at hk
  | logDebug s => simp at hk
  | waitDelay n => simp at hk

theorem not_mutation_mem_of_count_zero (t : List Effect)
    (h : countMutations t = 0) (m : MergeMethod) (p : MutationPayload)
    (k : MutationKind) : Effect.mutation m k p ∉ t := by
  intro hmem
  rw [countMutations, List.countP_eq_zero] at h
  exact absurd rfl (h _ hmem)

theorem no_kinds_of_count_zero (t : List Effect) (h : countMutations t = 0)
    (C : MutationKind → Prop) : ∀ k ∈ mutationKinds t, C k := by
  intro k hk
  obtain ⟨m0, p0, hmem⟩ := mutationKinds_mem t k hk
  exact absurd hmem (not_mutation_mem_of_count_zero t h m0 p0 k)

theorem kinds_of_append_mwr (pre : List Effect) (E W : Nat) (mm : MergeMethod)
    (outcomes : Nat → Option String) (max r : Nat) (d : PullRequestDetails)
    (hpre : countMutations pre = 0) :
    ∀ k ∈ mutationKinds (pre ++ mergeWithRetry E W mm outcomes max r d),
      k = mutationKind d.reviewEdge := by
  intro k hk
  obtain ⟨m0, p0, hmem⟩ := mutationKinds_mem _ k hk
  rw [List.mem_append] at hmem
  rcases hmem with hmem | hmem
  · exact absurd hmem (not_mutation_mem_of_count_zero pre hpre m0 p0 k)
  · have hshape :=
      (mergeWithRetry_shape_aux E W mm outcomes max d (max + 1 - r) r (le_refl _)).1
    have hmf : Effect.mutation m0 k p0 ∈
        mutationsOf (mergeWithRetry E W mm outcomes max r d) := by
      rw [mutationsOf, List.mem_filter]
      exact ⟨hmem, rfl⟩
    rw [hshape] at hmf
    have heq := List.eq_of_mem_replicate hmf
    injection heq with h1 h2 h3

/-- Every mutation kind of an accepted `tryMerge` run is the one selected
from the head of the snapshot's review edges. -/
theorem tryMerge_kinds (E W : Nat) (aan ev : String) (mm : MergeMethod)
    (titleOk : String → Bool) (pages : List (List PullRequestCommitNode))
    (outcomes : Nat → Option String) (max : Nat) (pr : PullRequestInformation)
    (t : List Effect)
    (h : tryMerge E W aan ev mm titleOk pages outcomes max pr = Except.ok t) :
    ∀ k ∈ mutationKinds t, k = mutationKind pr.reviewEdges.head? := by
  unfold tryMerge at h
  split at h
  · obtain rfl := Except.ok.inj h
    exact no_kinds_of_count_zero _ (by
      simp [countMutations, inputReads, isMutation, List.countP_append,
        List.countP_cons]) _
  · split at h
    · obtain rfl := Except.ok.inj h
      exact no_kinds_of_count_zero _ (by
        simp [countMutations, inputReads, isMutation, List.countP_append,
          List.countP_cons]) _
    · split at h
      · obtain rfl := Except.ok.inj h
        exact no_kinds_of_count_zero _ (by
          simp [countMutations, inputReads, isMutation, List.countP_append,
            List.countP_cons]) _
      · split at h
        · obtain rfl := Except.ok.inj h
          exact no_kinds_of_count_zero _ (by
            simp [countMutations, inputReads, isMutation, List.countP_append,
              List.countP_cons]) _
        · split at h
          · obtain rfl := Except.ok.inj h
            exact no_kinds_of_count_zero _ (by
              simp [countMutations, inputReads, isMutation, List.countP_append,
                List.countP_cons]) _
          · split at h
            · obtain rfl := Except.ok.inj h
              exact kinds_of_append_mwr inputReads E W mm outcomes max 1 _ (by
                simp [countMutations, inputReads, isMutation, List.countP_cons])
            · split at h
              · exact absurd h (by simp)
              · rename_i q td heq
                obtain rfl := Except.ok.inj h
                refine no_kinds_of_count_zero _ ?_ _
                have hdet : countMutations td = 0 := by
                  have hx := (getIsModified_trace_counts pages).1
                  rw [heq] at hx
                  exact hx
                have hin : List.countP isMutation inputReads = 0 := rfl
                simp only [countMutations, List.countP_append] at hdet ⊢
                rw [countP_replicate_zero isMutation Effect.commitQuery q rfl,
                  hin, hdet]
                simp [isMutation, List.countP_cons]
              · rename_i q td heq
                obtain rfl := Except.ok.inj h
                have hdet : countMutations td = 0 := by
                  have hx := (getIsModified_trace_counts pages).1
                  rw [heq] at hx
                  exact hx
                refine kinds_of_append_mwr
                  (inputReads ++ List.replicate q Effect.commitQuery ++ td)
                  E W mm outcomes max 1 _ ?_
                have hin : List.countP isMutation inputReads = 0 := rfl
                simp only [countMutations, List.countP_append] at hdet ⊢
                rw [countP_replicate_zero isMutation Effect.commitQuery q rfl,
                  hin, hdet]

/-- Claim C2, counterexample: a snapshot passing the first five gates with
the modification check enabled and commit data whose second commit has a
null author makes `tryMerge` propagate the detector's `TypeError` to its
caller instead of returning normally — `tryMerge` has no handler around
`getIsModified`. -/
theorem tryMerge_propagates_traversal_error :
    tryMerge 2 1000 "octocat" "false" MergeMethod.MERGE (fun _ => true)
      [[commitOctoSigned, commitNoAuthor]] (fun _ => none) 2 prMergeable =
      Except.error JsError.typeError := rfl

/-- Claim C2, amended: `tryMerge` returns normally on every input on which
the Modification Detector does not throw (in particular whenever it is
skipped or returns a boolean, and whatever the merge mutation does — all
merge-phase failures are caught by `mergeWithRetry`); only a thrown
traversal/author-access error of the detector escapes. -/
theorem tryMerge_ok_of_detector_ok (E W : Nat) (aan ev : String)
    (mm : MergeMethod) (titleOk : String → Bool)
    (pages : List (List PullRequestCommitNode)) (outcomes : Nat → Option String)
    (max : Nat) (pr : PullRequestInformation)
    (h : ∃ b, (getIsModified pages).1 = Except.ok b) :
    ∃ t, tryMerge E W aan ev mm titleOk pages outcomes max pr = Except.ok t := by
  obtain ⟨b, hb⟩ := h
  rcases hgm : getIsModified pages with ⟨r, q, t⟩
  rw [hgm] at hb
  dsimp only at hb
  subst hb
  unfold tryMerge
  rw [hgm]
  split
  · exact ⟨_, rfl⟩
  · split
    · exact ⟨_, rfl⟩
    · split
      · exact ⟨_, rfl⟩
      · split
        · exact ⟨_, rfl⟩
        · split
          · exact ⟨_, rfl⟩
          · split
            · exact ⟨_, rfl⟩
            · cases b
              · exact ⟨_, rfl⟩
              · exact ⟨_, rfl⟩

/-- Witness for the amended claim C2: detector answers `ok false`, every
mutation attempt fails, and `tryMerge` still returns normally. -/
theorem tryMerge_ok_of_detector_ok_witness :
    (∃ b, (getIsModified [[commitOctoSigned]]).1 = Except.ok b) ∧
    ∃ t, tryMerge 2 1000 "octocat" "false" MergeMethod.MERGE (fun _ => true)
      [[commitOctoSigned]] (fun _ => some "Base branch was modified.") 2
      prMergeable = Except.ok t :=
  ⟨⟨false, rfl⟩,
    tryMerge_ok_of_detector_ok 2 1000 "octocat" "false" MergeMethod.MERGE
      (fun _ => true) [[commitOctoSigned]]
      (fun _ => some "Base branch was modified.") 2 prMergeable ⟨false, rfl⟩⟩

/-- Claim C5 (confirmed): whenever one of the six gate preconditions fails
(non-mergeable state, already merged, blocking merge-state-status, not
open, title rejected by the preset, or modification detected with manual
changes disabled), `tryMerge` returns normally with a trace containing no
merge mutation; and when one of the first five fails, no commit page
query is issued either — the detector is not evaluated. -/
theorem gate_failure_no_mutation (E W : Nat) (aan ev : String)
    (mm : MergeMethod) (titleOk : String → Bool)
    (pages : List (List PullRequestCommitNode)) (outcomes : Nat → Option String)
    (max : Nat) (pr : PullRequestInformation)
    (h : pr.mergeableState ≠ "MERGEABLE" ∨ pr.merged = true ∨
      (pr.mergeStateStatus ≠ none ∧ pr.mergeStateStatus ≠ some "CLEAN") ∨
      pr.pullRequestState ≠ "OPEN" ∨ titleOk pr.pullRequestTitle = false ∨
      (ev ≠ "true" ∧ (getIsModified pages).1 = Except.ok true)) :
    ∃ t, tryMerge E W aan ev mm titleOk pages outcomes max pr = Except.ok t ∧
      countMutations t = 0 ∧
      ((pr.mergeableState ≠ "MERGEABLE" ∨ pr.merged = true ∨
        (pr.mergeStateStatus ≠ none ∧ pr.mergeStateStatus ≠ some "CLEAN") ∨
        pr.pullRequestState ≠ "OPEN" ∨ titleOk pr.pullRequestTitle = false) →
        countQueries t = 0) := by
  by_cases h1 : pr.mergeableState = "MERGEABLE"
  case neg =>
    have htr : tryMerge E W aan ev mm titleOk pages outcomes max pr =
        Except.ok (inputReads ++ [Effect.logInfo
          ("Pull request is not in a mergeable state: " ++ pr.mergeableState ++ ".")]) := by
      unfold tryMerge
      rw [if_pos h1]
    refine ⟨_, htr, ?_, fun _ => ?_⟩
    · simp [countMutations, inputReads, isMutation, List.countP_append,
        List.countP_cons]
    · simp [countQueries, inputReads, isCommitQuery, List.countP_append,
        List.countP_cons]
  case pos =>
  by_cases h2 : pr.merged = true
  case pos =>
    have htr : tryMerge E W aan ev mm titleOk pages outcomes max pr =
        Except.ok (inputReads ++
          [Effect.logInfo "Pull request is already merged."]) := by
      unfold tryMerge
      rw [if_neg (not_not_intro h1), if_pos h2]
    refine ⟨_, htr, ?_, fun _ => ?_⟩
    · simp [countMutations, inputReads, isMutation, List.countP_append,
        List.countP_cons]
    · simp [countQueries, inputReads, isCommitQuery, List.countP_append,
        List.countP_cons]
  case neg =>
  by_cases h3 : pr.mergeStateStatus ≠ none ∧ pr.mergeStateStatus ≠ some "CLEAN"
  case pos =>
    have htr : tryMerge E W aan ev mm titleOk pages outcomes max pr =
        Except.ok (inputReads ++ [Effect.logInfo
          ("Pull request cannot be merged cleanly. Current state: " ++
            pr.mergeStateStatus.getD "undefined" ++ ".")]) := by
      unfold tryMerge
      rw [if_neg (not_not_intro h1), if_neg h2, if_pos h3]
    refine ⟨_, htr, ?_, fun _ => ?_⟩
    · simp [countMutations, inputReads, isMutation, List.countP_append,
        List.countP_cons]
    · simp [countQueries, inputReads, isCommitQuery, List.countP_append,
        List.countP_cons]
  case neg =>
  by_cases h4 : pr.pullRequestState = "OPEN"
  case neg =>
    have htr : tryMerge E W aan ev mm titleOk pages outcomes max pr =
        Except.ok (inputReads ++ [Effect.logInfo
          ("Pull request is not open: " ++ pr.pullRequestState ++ ".")]) := by
      unfold tryMerge
      rw [if_neg (not_not_intro h1), if_neg h2, if_neg h3, if_pos h4]
    refine ⟨_, htr, ?_, fun _ => ?_⟩
    · simp [countMutations, inputReads, isMutation, List.countP_append,
        List.countP_cons]
    · simp [countQueries, inputReads, isCommitQuery, List.countP_append,
        List.countP_cons]
  case pos =>
  by_cases h5 : titleOk pr.pullRequestTitle = false
  case pos =>
    have htr : tryMerge E W aan ev mm titleOk pages outcomes max pr =
        Except.ok (inputReads ++ [Effect.logInfo
          "Pull request version bump is not allowed by PRESET."]) := by
      unfold tryMerge
      rw [if_neg (not_not_intro h1), if_neg h2, if_neg h3,
        if_neg (not_not_intro h4), if_pos h5]
    refine ⟨_, htr, ?_, fun _ => ?_⟩
    · simp [countMutations, inputReads, isMutation, List.countP_append,
        List.countP_cons]
    · simp [countQueries, inputReads, isCommitQuery, List.countP_append,
        List.countP_cons]
  case neg =>
  have h6 : ev ≠ "true" ∧ (getIsModified pages).1 = Except.ok true := by
    rcases h with hc | hc | hc | hc | hc | hc
    · exact absurd h1 hc
    · exact absurd hc h2
    · exact absurd hc h3
    · exact absurd h4 hc
    · exact absurd hc h5
    · exact hc
  rcases hgm : getIsModified pages with ⟨r, q, td⟩
  have hr : r = Except.ok true := by
    have hx := h6.2
    rw [hgm] at hx
    exact hx
  subst hr
  have htr : tryMerge E W aan ev mm titleOk pages outcomes max pr =
      Except.ok (inputReads ++ List.replicate q Effect.commitQuery ++ td ++
        [Effect.logInfo
          ("Pull request changes were not made by " ++ aan ++ ".")]) := by
    unfold tryMerge
    rw [if_neg (not_not_intro h1), if_neg h2, if_neg h3,
      if_neg (not_not_intro h4), if_neg h5, if_neg h6.1, hgm]
  refine ⟨_, htr, ?_, ?_⟩
  · have hdet : countMutations td = 0 := by
      have hx := (getIsModified_trace_counts pages).1
      rw [hgm] at hx
      exact hx
    have hin : List.countP isMutation inputReads = 0 := rfl
    simp only [countMutations, List.countP_append] at hdet ⊢
    rw [countP_replicate_zero isMutation Effect.commitQuery q rfl, hin, hdet]
    simp [isMutation, List.countP_cons]
  · intro hd
    exfalso
    rcases hd with hc | hc | hc | hc | hc
    · exact absurd h1 hc
    · exact absurd hc h2
    · exact absurd hc h3
    · exact absurd h4 hc
    · exact absurd hc h5

/-- Witness for claim C5 at a concrete conflicting snapshot: no mutation
and no commit query occur. -/
theorem gate_failure_no_mutation_witness :
    ∃ t, tryMerge 2 1000 "octocat" "false" MergeMethod.MERGE (fun _ => true)
      [[commitOctoSigned]] (fun _ => none) 2
      { prMergeable with mergeableState := "CONFLICTING" } = Except.ok t ∧
      countMutations t = 0 ∧
      (({ prMergeable with mergeableState := "CONFLICTING" }
          : PullRequestInformation).mergeableState ≠ "MERGEABLE" ∨
        ({ prMergeable with mergeableState := "CONFLICTING" }
          : PullRequestInformation).merged = true ∨
        (({ prMergeable with mergeableState := "CONFLICTING" }
          : PullRequestInformation).mergeStateStatus ≠ none ∧
         ({ prMergeable with mergeableState := "CONFLICTING" }
          : PullRequestInformation).mergeStateStatus ≠ some "CLEAN") ∨
        ({ prMergeable with mergeableState := "CONFLICTING" }
          : PullRequestInformation).pullRequestState ≠ "OPEN" ∨
        (fun _ => true) ({ prMergeable with mergeableState := "CONFLICTING" }
          : PullRequestInformation).pullRequestTitle = false →
        countQueries t = 0) :=
  gate_failure_no_mutation 2 1000 "octocat" "false" MergeMethod.MERGE
    (fun _ => true) [[commitOctoSigned]] (fun _ => none) 2
    { prMergeable with mergeableState := "CONFLICTING" }
    (Or.inl (by decide))

/-- Claim C6 (confirmed): with the first two gates passing, a present
merge-state-status different from CLEAN makes `tryMerge` skip with the
"cannot be merged cleanly" log (no mutation, no query), while an absent
merge-state-status does not block: the run is identical to the run with
the status CLEAN, so evaluation proceeds to the remaining checks. -/
theorem mergeStateStatus_gate_semantics (E W : Nat) (aan ev : String)
    (mm : MergeMethod) (titleOk : String → Bool)
    (pages : List (List PullRequestCommitNode)) (outcomes : Nat → Option String)
    (max : Nat) (pr : PullRequestInformation) (s : String)
    (h1 : pr.mergeableState = "MERGEABLE") (h2 : pr.merged = false) :
    (pr.mergeStateStatus = some s → s ≠ "CLEAN" →
      tryMerge E W aan ev mm titleOk pages outcomes max pr =
        Except.ok (inputReads ++ [Effect.logInfo
          ("Pull request cannot be merged cleanly. Current state: " ++ s ++ ".")])) ∧
    (pr.mergeStateStatus = none →
      tryMerge E W aan ev mm titleOk pages outcomes max pr =
        tryMerge E W aan ev mm titleOk pages outcomes max
          { pr with mergeStateStatus := some "CLEAN" }) := by
  constructor
  · intro hs hsc
    unfold tryMerge
    rw [if_neg (not_not_intro h1), if_neg (by simp [h2]),
      if_pos ⟨by simp [hs], by simp [hs, hsc]⟩, hs]
    rfl
  · intro hn
    unfold tryMerge
    dsimp only
    rw [hn]
    rw [if_neg (show ¬ ((none : Option String) ≠ none ∧
        (none : Option String) ≠ some "CLEAN") by simp)]
    rw [if_neg (show ¬ ((some "CLEAN" : Option String) ≠ none ∧
        (some "CLEAN" : Option String) ≠ some "CLEAN") by simp)]

/-- Witness for claim C6: a DIRTY status skips with the exact log, and an
absent status runs exactly like a CLEAN one. -/
theorem mergeStateStatus_gate_semantics_witness :
    tryMerge 2 1000 "octocat" "false" MergeMethod.MERGE (fun _ => true)
      [[commitOctoSigned]] (fun _ => none) 2
      { prMergeable with mergeStateStatus := some "DIRTY" } =
      Except.ok (inputReads ++ [Effect.logInfo
        ("Pull request cannot be merged cleanly. Current state: " ++
          "DIRTY" ++ ".")]) ∧
    tryMerge 2 1000 "octocat" "false" MergeMethod.MERGE (fun _ => true)
      [[commitOctoSigned]] (fun _ => none) 2 prMergeable =
      tryMerge 2 1000 "octocat" "false" MergeMethod.MERGE (fun _ => true)
        [[commitOctoSigned]] (fun _ => none) 2
        { prMergeable with mergeStateStatus := some "CLEAN" } :=
  ⟨(mergeStateStatus_gate_semantics 2 1000 "octocat" "false" MergeMethod.MERGE
      (fun _ => true) [[commitOctoSigned]] (fun _ => none) 2
      { prMergeable with mergeStateStatus := some "DIRTY" } "DIRTY" rfl rfl).1
      rfl (by decide),
   (mergeStateStatus_gate_semantics 2 1000 "octocat" "false" MergeMethod.MERGE
      (fun _ => true) [[commitOctoSigned]] (fun _ => none) 2
      prMergeable "DIRTY" rfl rfl).2 rfl⟩

/-- Claim C7 (confirmed): with no review edge the approve-and-merge
mutation variant is used; with review edges present the merge-only
variant is used, and only the first edge matters — the run with edges
`e :: es` is identical to the run with just `[e]`. -/
theorem reviewEdge_selects_mutation_variant (E W : Nat) (aan ev : String)
    (mm : MergeMethod) (titleOk : String → Bool)
    (pages : List (List PullRequestCommitNode)) (outcomes : Nat → Option String)
    (max : Nat) (pr : PullRequestInformation) (e : ReviewEdge)
    (es : List ReviewEdge) (t : List Effect) :
    (pr.reviewEdges = [] →
      tryMerge E W aan ev mm titleOk pages outcomes max pr = Except.ok t →
      ∀ k ∈ mutationKinds t, k = MutationKind.approveAndMerge) ∧
    (pr.reviewEdges = e :: es →
      (tryMerge E W aan ev mm titleOk pages outcomes max pr = Except.ok t →
        ∀ k ∈ mutationKinds t, k = MutationKind.mergeOnly) ∧
      tryMerge E W aan ev mm titleOk pages outcomes max pr =
        tryMerge E W aan ev mm titleOk pages outcomes max
          { pr with reviewEdges := [e] }) := by
  constructor
  · intro hre hok k hk
    have hkk := tryMerge_kinds E W aan ev mm titleOk pages outcomes max pr t hok k hk
    rw [hre] at hkk
    exact hkk
  · intro hre
    constructor
    · intro hok k hk
      have hkk := tryMerge_kinds E W aan ev mm titleOk pages outcomes max pr t hok k hk
      rw [hre] at hkk
      exact hkk
    · unfold tryMerge
      dsimp only
      rw [hre]
      rfl

/-- A review edge used by concrete runs below. -/
def reviewApproved : ReviewEdge := ⟨⟨"APPROVED"⟩⟩

/-- A second review edge (never used by the code path). -/
def reviewChanges : ReviewEdge := ⟨⟨"CHANGES_REQUESTED"⟩⟩

/-- Witness for claim C7: an empty review list selects approve-and-merge
on a successful merge run, and a two-edge list behaves exactly like the
one-edge list made of its head. -/
theorem reviewEdge_selects_mutation_variant_witness :
    (∀ k ∈ mutationKinds (inputReads ++ mergeEffects MergeMethod.MERGE
        ⟨"chore(deps): bump lib from 1.0.0 to 1.0.1", "PR_kwDOA1", none⟩),
      k = MutationKind.approveAndMerge) ∧
    tryMerge 2 1000 "octocat" "true" MergeMethod.MERGE (fun _ => true) []
        (fun _ => none) 2
        { prMergeable with reviewEdges := [reviewApproved, reviewChanges] } =
      tryMerge 2 1000 "octocat" "true" MergeMethod.MERGE (fun _ => true) []
        (fun _ => none) 2
        { { prMergeable with reviewEdges := [reviewApproved, reviewChanges] }
          with reviewEdges := [reviewApproved] } := by
  constructor
  · intro k hk
    have hok : tryMerge 2 1000 "octocat" "true" MergeMethod.MERGE (fun _ => true)
        [] (fun _ => none) 2 prMergeable =
        Except.ok (inputReads ++ mergeWithRetry 2 1000 MergeMethod.MERGE
          (fun _ => none) 2 1
          ⟨"chore(deps): bump lib from 1.0.0 to 1.0.1", "PR_kwDOA1", none⟩) := rfl
    rw [mergeWithRetry_success 2 1000 MergeMethod.MERGE (fun _ => none) 2 1
      ⟨"chore(deps): bump lib from 1.0.0 to 1.0.1", "PR_kwDOA1", none⟩ rfl] at hok
    exact (reviewEdge_selects_mutation_variant 2 1000 "octocat" "true"
      MergeMethod.MERGE (fun _ => true) [] (fun _ => none) 2 prMergeable
      reviewApproved [] _).1 rfl hok k hk
  · exact ((reviewEdge_selects_mutation_variant 2 1000 "octocat" "true"
      MergeMethod.MERGE (fun _ => true) [] (fun _ => none) 2
      { prMergeable with reviewEdges := [reviewApproved, reviewChanges] }
      reviewApproved [reviewChanges] []).2 rfl).2

/-- Claim C10 (confirmed): the value of the GITHUB_LOGIN input has no
influence on the queries, mutations, delays, configuration reads, number
and kind of log lines, or the terminal outcome of `tryMerge`: two runs
differing only in that input produce the same result up to the text of
log messages (the value appears only inside one skip log's text). -/
theorem tryMerge_independent_of_github_login (E W : Nat) (a1 a2 ev : String)
    (mm : MergeMethod) (titleOk : String → Bool)
    (pages : List (List PullRequestCommitNode)) (outcomes : Nat → Option String)
    (max : Nat) (pr : PullRequestInformation) :
    eraseLogs (tryMerge E W a1 ev mm titleOk pages outcomes max pr) =
    eraseLogs (tryMerge E W a2 ev mm titleOk pages outcomes max pr) := by
  unfold tryMerge
  by_cases h1 : pr.mergeableState ≠ "MERGEABLE"
  · rw [if_pos h1, if_pos h1]
  · rw [if_neg h1, if_neg h1]
    by_cases h2 : pr.merged = true
    · rw [if_pos h2, if_pos h2]
    · rw [if_neg h2, if_neg h2]
      by_cases h3 : pr.mergeStateStatus ≠ none ∧ pr.mergeStateStatus ≠ some "CLEAN"
      · rw [if_pos h3, if_pos h3]
      · rw [if_neg h3, if_neg h3]
        by_cases h4 : pr.pullRequestState ≠ "OPEN"
        · rw [if_pos h4, if_pos h4]
        · rw [if_neg h4, if_neg h4]
          by_cases h5 : titleOk pr.pullRequestTitle = false
          · rw [if_pos h5, if_pos h5]
          · rw [if_neg h5, if_neg h5]
            by_cases h6 : ev = "true"
            · rw [if_pos h6, if_pos h6]
            · rw [if_neg h6, if_neg h6]
              rcases hgm : getIsModified pages with ⟨r, q, td⟩
              cases r with
              | error e => rfl
              | ok b =>
                cases b with
                | false => rfl
                | true =>
                  simp [eraseLogs, eraseLogText, List.map_append]

end MergeMe
